import Mathlib

/-!
Shallow embedding of `src/axscale.c`, a joystick axis-range calibration
tool built on libevdev, together with theorems checking the natural
language specification against it.

Machine integers are modelled as `Nat` / `Int` with explicit reduction
modulo `2^32` wherever the C code performs unsigned arithmetic or a
signed-to-unsigned conversion.  Constants referenced by the code but
defined by the Linux input headers have their fixed ABI values:
`ABS_X = 0x00`, `ABS_RZ = 0x05`, `EV_ABS = 0x03`, `USHRT_MAX = 65535`.
-/

namespace Axscale

/-- Macro `#define AXIS_A ABS_X` (`ABS_X = 0` in linux/input-event-codes.h). -/
def AXIS_A : Nat := 0

/-- Macro `#define AXIS_Z ABS_RZ` (`ABS_RZ = 5` in linux/input-event-codes.h). -/
def AXIS_Z : Nat := 5

/-- Macro `#define AXIS_COUNT (AXIS_Z - AXIS_A + 1)`. -/
def AXIS_COUNT : Nat := AXIS_Z - AXIS_A + 1

/-- Constant `EV_ABS = 3` from the Linux input headers. -/
def EV_ABS : Nat := 3

/-- Struct `axis_range { bool present; unsigned int min; unsigned int max; }`.
The unsigned fields are `Nat`s that the operations keep below `2^32`. -/
structure axis_range where
  present : Bool
  min : Nat
  max : Nat
deriving DecidableEq

/-- The all-zero `axis_range`, as produced by `= {0}` initialization. -/
def zeroRange : axis_range := ⟨false, 0, 0⟩

/-- Value of a signed 32-bit quantity after C's usual arithmetic conversion
to `unsigned int` (reduction modulo `2^32`). -/
def toU32 (v : Int) : Nat := (v % 2 ^ 32).toNat

/-- Lines 173-178 of `detect`: `if (event.value > range->max) range->max =
event.value; if (event.value < range->min) range->min = event.value;`.
Both comparisons are `int` against `unsigned int`, so the signed event
value is converted to unsigned first, and the assignments store the
converted value. -/
def updRange (r : axis_range) (v : Int) : axis_range :=
  let r1 := if toU32 v > r.max then { r with max := toU32 v } else r
  if toU32 v < r1.min then { r1 with min := toU32 v } else r1

/-- Lines 92-102 of `detect`: the table starts zeroed; for each axis
`AXIS_A..AXIS_Z` that `libevdev_has_event_code(dev, EV_ABS, axis)`
reports, set `present = true, max = 0, min = USHRT_MAX` (65535).
Index `i` of the table corresponds to axis code `AXIS_A + i`. -/
def initTable (has : Nat → Bool) : List axis_range :=
  (List.range AXIS_COUNT).map fun i =>
    if has (AXIS_A + i) then ⟨true, 65535, 0⟩ else zeroRange

/-- One line of the mapping file, `axis %d: min = %u, max = %u`. -/
structure MapLine where
  axis : Nat
  min : Nat
  max : Nat
deriving DecidableEq

/-- Lines 140-148 of `detect` (the FINALIZING write loop): one line per
present axis, in ascending axis order, printing the axis code and the
final min/max. -/
def writeLines (t : List axis_range) : List MapLine :=
  (List.range AXIS_COUNT).filterMap fun i =>
    let r := t.getD i zeroRange
    if r.present then some ⟨AXIS_A + i, r.min, r.max⟩ else none

/-- Result of one `libevdev_next_event` call: fatal error (`ret < 0`),
resynchronization (`LIBEVDEV_READ_STATUS_SYNC`), or an event with a type,
a code and a signed 32-bit value. -/
inductive DevRead where
  | err
  | sync
  | event (ty code : Nat) (value : Int)

/-- One wake-up of the `poll` multiplex in `detect`'s WAITING loop: the
cancellation signalfd is ready (checked first by the code, so simultaneous
readiness is represented by `cancel`), the device fd is ready with a given
read outcome, or the wake-up carries an unrecognized condition. -/
inductive PollItem where
  | cancel
  | dev (r : DevRead)
  | pollErr

/-- Which `return false` path of `detect` was taken. -/
inductive FailKind where
  | readErr
  | internalErr
  | pollErr
deriving DecidableEq

/-- Outcome of `detect`'s event loop: success carrying the lines written
to the mapping file, failure (no line is written on any failure path),
or still blocked waiting after all supplied wake-ups. -/
inductive DetectResult where
  | success (lines : List MapLine)
  | failure (k : FailKind)
  | blocked
deriving DecidableEq

/-- Lines 133-183 of `detect`: the WAITING loop, driven by the sequence
of `poll` wake-ups.  A cancellation wake-up writes the file and returns
success; a device error or a sample for a non-present axis returns false;
sync results, non-`EV_ABS` events and events with a code outside
`AXIS_A..AXIS_Z` are skipped; a valid sample updates the table. -/
def detectLoop (t : List axis_range) : List PollItem → DetectResult
  | [] => .blocked
  | .cancel :: _ => .success (writeLines t)
  | .pollErr :: _ => .failure .pollErr
  | .dev .err :: _ => .failure .readErr
  | .dev .sync :: rest => detectLoop t rest
  | .dev (.event ty code v) :: rest =>
    if ty ≠ EV_ABS ∨ code < AXIS_A ∨ code > AXIS_Z then detectLoop t rest
    else
      let r := t.getD (code - AXIS_A) zeroRange
      if r.present = false then .failure .internalErr
      else detectLoop (t.set (code - AXIS_A) (updRange r v)) rest

/-- The capture operation: initialize the table from the device's
capability queries, then run the WAITING loop. -/
def detect (has : Nat → Bool) (polls : List PollItem) : DetectResult :=
  detectLoop (initTable has) polls

/-- C `isspace` characters (the ones a scanf white-space directive eats). -/
def isSpaceChar (c : Char) : Bool :=
  c == ' ' || c == '\t' || c == '\n' || c == '\x0b' || c == '\x0c' || c == '\r'

/-- A white-space directive of the scan format: consume the maximal run of
white space.  The second component records whether the directive attempted
a read past the end of input (which sets the stream's end-of-file flag);
the directive itself never fails. -/
def wsDir : List Char → List Char × Bool
  | [] => ([], true)
  | c :: cs => if isSpaceChar c then wsDir cs else (c :: cs, false)

/-- Outcome of matching a single ordinary character of the format:
matched, matching failure (the offending character stays unread), or
input failure at end of file. -/
inductive LitRes where
  | ok (rest : List Char)
  | mismatch (rest : List Char)
  | eofHit (rest : List Char)

/-- An ordinary-character directive: match exactly the next input
character, with no white-space skipping. -/
def litDir (c : Char) : List Char → LitRes
  | [] => .eofHit []
  | x :: xs => if x == c then .ok xs else .mismatch (x :: xs)

/-- Split a maximal run of decimal digits off the front of the input. -/
def splitDigits : List Char → List Char × List Char
  | [] => ([], [])
  | c :: cs =>
    if c.isDigit then
      let p := splitDigits cs
      (c :: p.1, p.2)
    else ([], c :: cs)

/-- Decimal value of a digit run. -/
def digitsToNat (ds : List Char) : Nat :=
  ds.foldl (fun a c => a * 10 + (c.toNat - 48)) 0

/-- Outcome of a numeric conversion: a sign/magnitude pair, matching
failure, or input failure. -/
inductive NumRes where
  | ok (neg : Bool) (mag : Nat) (rest : List Char)
  | mismatch (rest : List Char)
  | eofHit (rest : List Char)

/-- A `%d` / `%u` conversion: skip white space, read an optional sign,
then a nonempty digit run.  The flag records whether end of input was
reached (during the skip, after the sign, or when peeking past the last
digit), i.e. whether the stream's end-of-file flag gets set. -/
def numDir (inp : List Char) : NumRes × Bool :=
  let w := wsDir inp
  match w.1 with
  | [] => (.eofHit [], true)
  | c :: cs =>
    let sgn : Bool × List Char :=
      if c == '-' then (true, cs)
      else if c == '+' then (false, cs)
      else (false, c :: cs)
    let p := splitDigits sgn.2
    if p.1.isEmpty then
      if p.2.isEmpty then (.eofHit [], true) else (.mismatch p.2, false)
    else (.ok sgn.1 (digitsToNat p.1) p.2, p.2.isEmpty)

/-- Value stored by `%d` into a C `int`: signed, wrapping modulo `2^32`
(all inputs evaluated in this development are far from the wrap). -/
def dVal (neg : Bool) (mag : Nat) : Int :=
  let v : Int := if neg then -(mag : Int) else (mag : Int)
  (v + 2 ^ 31) % 2 ^ 32 - 2 ^ 31

/-- Value stored by `%u` into a C `unsigned int`, modulo `2^32`. -/
def uVal (neg : Bool) (mag : Nat) : Nat :=
  if neg then (2 ^ 32 - mag % 2 ^ 32) % 2 ^ 32 else mag % 2 ^ 32

/-- One directive of a scan format. -/
inductive Dir where
  | lit (c : Char)
  | ws
  | dInt
  | uNat

/-- The directive sequence of
`MAP_FILE_LINE_FORMAT = "axis %d: min = %u, max = %u\n"`:
ordinary characters match literally, blanks and the trailing `\n` are
white-space directives. -/
def fmtDirs : List Dir :=
  [.lit 'a', .lit 'x', .lit 'i', .lit 's', .ws, .dInt,
   .lit ':', .ws, .lit 'm', .lit 'i', .lit 'n', .ws, .lit '=', .ws, .uNat,
   .lit ',', .ws, .lit 'm', .lit 'a', .lit 'x', .ws, .lit '=', .ws, .uNat,
   .ws]

/-- Result of one `fscanf` call: the return value (`-1` for EOF, else the
number of completed conversions), the converted values in order, the
unread remainder of the input, and whether the end-of-file flag was set. -/
structure ScanOut where
  ret : Int
  vals : List Int
  rest : List Char
  eof : Bool

/-- Run a directive list, fscanf-style: stop at the first failing
directive; the return value is `-1` exactly when an input failure occurs
before the first conversion has completed, and otherwise the number of
completed conversions. -/
def runDirs : List Dir → List Char → List Int → Bool → ScanOut
  | [], inp, conv, e => ⟨(conv.length : Int), conv, inp, e⟩
  | .ws :: ds, inp, conv, e =>
    let w := wsDir inp
    runDirs ds w.1 conv (e || w.2)
  | .lit c :: ds, inp, conv, e =>
    match litDir c inp with
    | .ok r => runDirs ds r conv e
    | .mismatch r => ⟨(conv.length : Int), conv, r, e⟩
    | .eofHit r => ⟨if conv.isEmpty then -1 else (conv.length : Int), conv, r, true⟩
  | .dInt :: ds, inp, conv, e =>
    match numDir inp with
    | (.ok neg mag r, e2) => runDirs ds r (conv ++ [dVal neg mag]) (e || e2)
    | (.mismatch r, e2) => ⟨(conv.length : Int), conv, r, e || e2⟩
    | (.eofHit r, _) => ⟨if conv.isEmpty then -1 else (conv.length : Int), conv, r, true⟩
  | .uNat :: ds, inp, conv, e =>
    match numDir inp with
    | (.ok neg mag r, e2) => runDirs ds r (conv ++ [(uVal neg mag : Int)]) (e || e2)
    | (.mismatch r, e2) => ⟨(conv.length : Int), conv, r, e || e2⟩
    | (.eofHit r, _) => ⟨if conv.isEmpty then -1 else (conv.length : Int), conv, r, true⟩

/-- One `fscanf(fp, MAP_FILE_LINE_FORMAT, &axis, &min, &max)` call
(line 198 of `load`). -/
def scanLine (inp : List Char) : ScanOut := runDirs fmtDirs inp [] false

/-- Outcome of `load`'s parse loop on its table: a well-defined table, or
one of the two undefined behaviours the loop can run into: using the
line variables while fewer than all three were assigned by `fscanf`
(they are declared uninitialized inside the loop body), or writing
through an out-of-bounds table index. -/
inductive TableOutcome where
  | ok (t : List axis_range)
  | ubUninit
  | ubOOB
deriving DecidableEq

/-- State of `load`'s read loop: unread input, the stream's end-of-file
flag, and the table (or the fact that undefined behaviour occurred). -/
structure ReadState where
  input : List Char
  eofF : Bool
  table : TableOutcome
deriving DecidableEq

/-- Line 202-205 of `load`: `axes_ranges[axis - AXIS_A] = {present = true,
min, max}`, with the index check the C code omits made explicit: the
out-of-range branch is an out-of-bounds array write. -/
def tableSet (t : List axis_range) (axis : Int) (mn mx : Nat) :
    Option (List axis_range) :=
  let idx : Int := axis - (AXIS_A : Int)
  if 0 ≤ idx ∧ idx < (AXIS_COUNT : Int) then
    some (t.set idx.toNat ⟨true, mn, mx⟩)
  else none

/-- One iteration of `load`'s `while (!feof(fp))` body (lines 195-206):
one `fscanf`, an error message when its return value is negative (no
state effect), then the unconditional table write from the line
variables. -/
def readStep (s : ReadState) : ReadState :=
  let o := scanLine s.input
  let table :=
    match s.table with
    | .ok t =>
      match o.vals with
      | [a, mn, mx] =>
        match tableSet t a mn.toNat mx.toNat with
        | some t2 => .ok t2
        | none => .ubOOB
      | _ => .ubUninit
    | b => b
  ⟨o.rest, o.eof, table⟩

/-- Fuel-indexed run of `load`'s read loop; `none` means the loop did not
terminate within the given fuel. -/
def readLoop : Nat → ReadState → Option TableOutcome
  | 0, _ => none
  | n + 1, s => if s.eofF then some s.table else readLoop n (readStep s)

/-- The zero-initialized table `axis_range axes_ranges[AXIS_COUNT] = {0}`. -/
def emptyTable : List axis_range := List.replicate AXIS_COUNT zeroRange

/-- The read phase of `load` on a file's text, starting from the
zero-initialized table with the end-of-file flag clear. -/
def readFile (fuel : Nat) (content : List Char) : Option TableOutcome :=
  readLoop fuel ⟨content, false, .ok emptyTable⟩

/-- Text of one mapping line,
`fprintf(fp, "axis %d: min = %u, max = %u\n", axis, min, max)`. -/
def lineChars (l : MapLine) : List Char :=
  ("axis " ++ Nat.repr l.axis ++ ": min = " ++ Nat.repr l.min ++
    ", max = " ++ Nat.repr l.max ++ "\n").data

/-- Text written by the FINALIZING loop for a whole table. -/
def writeFile (t : List axis_range) : List Char :=
  ((writeLines t).map lineChars).flatten

/-- One recorded `set_axis_range` mutation: axis code, minimum, maximum
(the code performs it as `libevdev_set_abs_minimum` followed by
`libevdev_set_abs_maximum`). -/
abbrev setCall : Type := Nat × Nat × Nat

/-- Lines 208-221 of `load`: walk the axes in ascending order; skip
non-present entries; abort returning `false` at the first present entry
whose axis the device lacks; otherwise record the range mutation.  The
returned list holds the mutations performed before the loop ended. -/
def loadGo (has : Nat → Bool) (t : List axis_range) :
    List Nat → List setCall → Bool × List setCall
  | [], acc => (true, acc.reverse)
  | i :: rest, acc =>
    if (t.getD i zeroRange).present = false then loadGo has t rest acc
    else if has (AXIS_A + i) = false then (false, acc.reverse)
    else
      loadGo has t rest
        ((AXIS_A + i, (t.getD i zeroRange).min, (t.getD i zeroRange).max) :: acc)

/-- The apply phase of `load` over the whole axis range. -/
def loadApply (has : Nat → Bool) (t : List axis_range) : Bool × List setCall :=
  loadGo has t (List.range AXIS_COUNT) []

/-- Effect of a sequence of `set_axis_range` calls on the device's
per-axis (min, max) configuration: last write wins. -/
def applyCalls (cfg : Nat → Nat × Nat) (calls : List setCall) : Nat → Nat × Nat :=
  calls.foldl (fun c k => fun a => if a = k.1 then (k.2.1, k.2.2) else c a) cfg

/-- The whole `load` operation: parse the mapping file, then apply it to
the device.  `none` when the read phase ran out of fuel or hit undefined
behaviour. -/
def loadRun (has : Nat → Bool) (fuel : Nat) (content : List Char) :
    Option (Bool × List setCall) :=
  match readFile fuel content with
  | some (.ok t) => some (loadApply has t)
  | _ => none

/-- Running aggregate for a single present axis starting from its
freshly initialized sentinels. -/
def runAxis (l : List Int) : axis_range := l.foldl updRange ⟨true, 65535, 0⟩

theorem initTable_length (has : Nat → Bool) : (initTable has).length = AXIS_COUNT := by
  simp [initTable]

theorem initTable_getD (has : Nat → Bool) {i : Nat} (h : i < AXIS_COUNT) :
    (initTable has).getD i zeroRange =
      if has (AXIS_A + i) then ⟨true, 65535, 0⟩ else zeroRange := by
  rw [List.getD_eq_getElem _ _ (by simpa [initTable_length] using h)]
  simp [initTable]

theorem writeLines_initTable (has : Nat → Bool) :
    writeLines (initTable has) =
      (List.range AXIS_COUNT).filterMap fun i =>
        if has i then some ⟨i, 65535, 0⟩ else none := by
  unfold writeLines
  refine List.filterMap_congr ?_
  intro i hi
  rw [initTable_getD has (List.mem_range.mp hi)]
  simp only [show AXIS_A + i = i from by simp [AXIS_A]]
  cases h2 : has i <;> simp [zeroRange]

/-- Claim C1, counterexample: the system does not support 12 axes with
AxisIds 0..11; `AXIS_COUNT` is 6 and the table has no entry at index 11. -/
theorem c1_counterexample :
    AXIS_COUNT = 6 ∧ AXIS_COUNT ≠ 12 ∧
      (initTable fun _ => true).length ≠ 12 ∧
      ¬11 < (initTable fun _ => true).length := by decide

/-- Claim C1, amended: the system supports exactly 6 absolute axes with
AxisIds 0..5 (`ABS_X` through `ABS_RZ`): the table has one entry per
AxisId 0..5, and capture's INITIALIZING step queries `has_axis` for every
AxisId 0..5, marking each present axis with `present = true`,
`min = 65535`, `max = 0` and leaving absent axes zeroed. -/
theorem c1_amended :
    AXIS_COUNT = 6 ∧
    (∀ has : Nat → Bool, (initTable has).length = AXIS_COUNT) ∧
    (∀ (has : Nat → Bool) (i : Nat), i < AXIS_COUNT →
      (initTable has).getD i zeroRange =
        if has i then ⟨true, 65535, 0⟩ else zeroRange) := by
  refine ⟨rfl, initTable_length, ?_⟩
  intro has i h
  rw [initTable_getD has h]
  simp [AXIS_A]

/-- Witness for C1's amended theorem at a concrete device with only
axis 0. -/
theorem c1_witness :
    (0 < AXIS_COUNT ∧
      (initTable fun a => a == 0).getD 0 zeroRange = ⟨true, 65535, 0⟩) ∧
    (1 < AXIS_COUNT ∧
      (initTable fun a => a == 0).getD 1 zeroRange = zeroRange) :=
  ⟨⟨by decide, by simpa using c1_amended.2.2 (fun a => a == 0) 0 (by decide)⟩,
   ⟨by decide, by simpa using c1_amended.2.2 (fun a => a == 0) 1 (by decide)⟩⟩

/-- Claim C5: if the cancellation notification is the first wake-up, for
any device capability set, capture terminates successfully and writes
exactly one line for each present axis, carrying the untouched sentinels
min = 65535 and max = 0 (min > max), in ascending AxisId order. -/
theorem c5_cancel_first (has : Nat → Bool) (rest : List PollItem) :
    detect has (.cancel :: rest) =
      .success ((List.range AXIS_COUNT).filterMap fun i =>
        if has i then some ⟨i, 65535, 0⟩ else none) ∧
    List.Pairwise (fun a b : MapLine => a.axis < b.axis)
      ((List.range AXIS_COUNT).filterMap fun i =>
        if has i then some ⟨i, 65535, 0⟩ else none) := by
  constructor
  · show DetectResult.success (writeLines (initTable has)) = _
    rw [writeLines_initTable]
  · rw [List.pairwise_filterMap]
    refine (List.pairwise_lt_range AXIS_COUNT).imp ?_
    intro a b hab x hx y hy
    split at hx
    · split at hy
      · simp only [Option.mem_def, Option.some.injEq] at hx hy
        subst hx; subst hy
        exact hab
      · simp at hy
    · simp at hx

/-- Claim C6: a capture session whose present axis 0 receives exactly the
samples [300, 50, 900, 500] (in any order) before cancellation records
min = 50, max = 900 for that axis. -/
theorem c6_aggregate (l : List Int) (h : l.Perm [300, 50, 900, 500]) :
    detect (fun a => a == 0)
      (l.map (fun v => .dev (.event EV_ABS 0 v)) ++ [.cancel]) =
      .success [⟨0, 50, 900⟩] := by
  have hm : l ∈ List.permutations' [300, 50, 900, 500] :=
    List.mem_permutations'.mpr h
  rw [show List.permutations' ([300, 50, 900, 500] : List Int) =
      ([[300, 50, 900, 500], [50, 300, 900, 500], [50, 900, 300, 500],
        [50, 900, 500, 300], [300, 900, 50, 500], [900, 300, 50, 500],
        [900, 50, 300, 500], [900, 50, 500, 300], [300, 900, 500, 50],
        [900, 300, 500, 50], [900, 500, 300, 50], [900, 500, 50, 300],
        [300, 50, 500, 900], [50, 300, 500, 900], [50, 500, 300, 900],
        [50, 500, 900, 300], [300, 500, 50, 900], [500, 300, 50, 900],
        [500, 50, 300, 900], [500, 50, 900, 300], [300, 500, 900, 50],
        [500, 300, 900, 50], [500, 900, 300, 50], [500, 900, 50, 300]] :
      List (List Int))
    from by decide] at hm
  fin_cases hm <;> rfl

/-- Witness for C6 at the order in which the samples are listed. -/
theorem c6_witness :
    detect (fun a => a == 0)
      ([300, 50, 900, 500].map (fun v => .dev (.event EV_ABS 0 v)) ++ [.cancel]) =
      .success [⟨0, 50, 900⟩] :=
  c6_aggregate [300, 50, 900, 500] (List.Perm.refl _)

/-- Claim C7: a sample event for an in-range axis whose table entry is not
marked present makes capture fail immediately with the internal
consistency error; the failure result carries no written line and later
wake-ups are never examined. -/
theorem c7_internal_error (has : Nat → Bool) (code : Nat) (v : Int)
    (rest : List PollItem) (h1 : code < AXIS_COUNT) (h2 : has code = false) :
    detect has (.dev (.event EV_ABS code v) :: rest) =
      .failure .internalErr := by
  have hcond : ¬(EV_ABS ≠ EV_ABS ∨ code < AXIS_A ∨ code > AXIS_Z) := by
    show ¬((3 : Nat) ≠ 3 ∨ code < 0 ∨ code > 5)
    have h1' : code < 6 := h1
    omega
  have hA : code - AXIS_A = code := by simp [AXIS_A]
  have h2' : has (AXIS_A + code) = false := by simpa [AXIS_A] using h2
  simp only [detect, detectLoop, if_neg hcond]
  rw [hA, initTable_getD has h1, h2']
  simp [zeroRange]

/-- Witness for C7: a device with no axes still sending an event for
axis 0. -/
theorem c7_witness :
    detect (fun _ => false) [.dev (.event EV_ABS 0 0)] =
      .failure .internalErr :=
  c7_internal_error (fun _ => false) 0 0 [] (by decide) rfl

theorem loadGo_calls (has : Nat → Bool) (t : List axis_range) :
    ∀ (axes : List Nat) (acc : List setCall),
      ∀ c ∈ (loadGo has t axes acc).2,
        c ∈ acc ∨ ∃ i ∈ axes,
          c = (AXIS_A + i, (t.getD i zeroRange).min, (t.getD i zeroRange).max) ∧
          (t.getD i zeroRange).present = true ∧ has (AXIS_A + i) = true := by
  intro axes
  induction axes with
  | nil => intro acc c hc; exact Or.inl (List.mem_reverse.mp hc)
  | cons a rest ih =>
    intro acc c hc
    simp only [loadGo] at hc
    by_cases hp : (t.getD a zeroRange).present = false
    · rw [if_pos hp] at hc
      rcases ih acc c hc with h | ⟨i, hi, hrest⟩
      · exact Or.inl h
      · exact Or.inr ⟨i, List.mem_cons_of_mem _ hi, hrest⟩
    · rw [if_neg hp] at hc
      have hp' : (t.getD a zeroRange).present = true := by
        revert hp; cases (t.getD a zeroRange).present <;> simp
      by_cases hh : has (AXIS_A + a) = false
      · rw [if_pos hh] at hc
        exact Or.inl (List.mem_reverse.mp hc)
      · rw [if_neg hh] at hc
        have hh' : has (AXIS_A + a) = true := by
          revert hh; cases has (AXIS_A + a) <;> simp
        rcases ih _ c hc with h | ⟨i, hi, hrest⟩
        · rcases List.mem_cons.mp h with h1 | h2
          · exact Or.inr ⟨a, List.mem_cons_self _ _, h1, hp', hh'⟩
          · exact Or.inl h2
        · exact Or.inr ⟨i, List.mem_cons_of_mem _ hi, hrest⟩

theorem loadGo_fails (has : Nat → Bool) (t : List axis_range) :
    ∀ (axes : List Nat) (acc : List setCall) (i : Nat), i ∈ axes →
      (t.getD i zeroRange).present = true → has (AXIS_A + i) = false →
      (loadGo has t axes acc).1 = false := by
  intro axes
  induction axes with
  | nil => intro acc i hi; simp at hi
  | cons a rest ih =>
    intro acc i hi hp hh
    simp only [loadGo]
    by_cases hpa : (t.getD a zeroRange).present = false
    · rw [if_pos hpa]
      rcases List.mem_cons.mp hi with rfl | hir
      · rw [hp] at hpa; cases hpa
      · exact ih acc i hir hp hh
    · rw [if_neg hpa]
      by_cases hha : has (AXIS_A + a) = false
      · rw [if_pos hha]
      · rw [if_neg hha]
        rcases List.mem_cons.mp hi with rfl | hir
        · exact absurd hh hha
        · exact ih _ i hir hp hh

/-- The mapping file of C2's counterexample: axes 0 and 1, both present. -/
def mismatchContent : List Char :=
  ("axis 0: min = 1, max = 2\naxis 1: min = 3, max = 4\n").data

/-- Claim C2, counterexample: loading a file whose axes are 0 and 1 onto
a device that has only axis 0 fails with the mismatch error, but the
range mutation for axis 0 has already been performed, so the device's
axis configuration is not left entirely unchanged. -/
theorem c2_counterexample :
    loadRun (fun a => a == 0) 3 mismatchContent = some (false, [(0, 1, 2)]) ∧
    ([((0 : Nat), (1 : Nat), (2 : Nat))] : List setCall) ≠ [] ∧
    applyCalls (fun _ => (7, 8)) [((0 : Nat), (1 : Nat), (2 : Nat))] 0 ≠ (7, 8) := by
  exact ⟨by decide, by decide, by decide⟩

/-- Claim C2, amended: if the parsed table marks present some axis the
device lacks, load fails with the mismatch error, and the mutations that
were applied before the loop aborted are exactly range mutations of
valid entries (present in the table, supported by the device, with the
table's min/max); entries at or after the first mismatching axis are not
applied, but such earlier valid entries have been — application is not
all-or-nothing. -/
theorem c2_amended (has : Nat → Bool) (t : List axis_range) (i : Nat)
    (h1 : i < AXIS_COUNT) (h2 : (t.getD i zeroRange).present = true)
    (h3 : has (AXIS_A + i) = false) :
    (loadApply has t).1 = false ∧
    ∀ c ∈ (loadApply has t).2, ∃ j, j < AXIS_COUNT ∧
      c = (AXIS_A + j, (t.getD j zeroRange).min, (t.getD j zeroRange).max) ∧
      (t.getD j zeroRange).present = true ∧ has (AXIS_A + j) = true := by
  constructor
  · exact loadGo_fails has t _ [] i (List.mem_range.mpr h1) h2 h3
  · intro c hc
    rcases loadGo_calls has t _ [] c hc with h | ⟨j, hj, hrest⟩
    · simp at h
    · exact ⟨j, List.mem_range.mp hj, hrest⟩

/-- The parsed table of C2's witness. -/
def t2 : List axis_range :=
  [⟨true, 1, 2⟩, ⟨true, 3, 4⟩, zeroRange, zeroRange, zeroRange, zeroRange]

/-- Witness for C2's amended theorem on the concrete mismatching table. -/
theorem c2_witness : (loadApply (fun a => a == 0) t2).1 = false :=
  (c2_amended (fun a => a == 0) t2 1 (by decide) (by decide) (by decide)).1

theorem applyCalls_of_not_mem (calls : List setCall) :
    ∀ (cfg : Nat → Nat × Nat) (a : Nat),
      (∀ mn mx : Nat, ((a, mn, mx) : setCall) ∉ calls) →
      applyCalls cfg calls a = cfg a := by
  induction calls with
  | nil => intro cfg a _; rfl
  | cons k rest ih =>
    intro cfg a h
    have hak : ¬a = k.1 := by
      intro he
      exact h k.2.1 k.2.2 (he ▸ List.mem_cons_self _ _)
    show applyCalls (fun x => if x = k.1 then (k.2.1, k.2.2) else cfg x) rest a = cfg a
    rw [ih _ a fun mn mx hm => h mn mx (List.mem_cons_of_mem _ hm)]
    simp [hak]

/-- Claim C8: after a successful load, no range mutation was issued for
any axis the parsed table does not mark present, and the device
configuration at such an axis is unchanged. -/
theorem c8_frame (has : Nat → Bool) (t : List axis_range)
    (calls : List setCall) (cfg : Nat → Nat × Nat) (j : Nat)
    (hload : loadApply has t = (true, calls))
    (hj : (t.getD j zeroRange).present = false) :
    (∀ mn mx : Nat, ((AXIS_A + j, mn, mx) : setCall) ∉ calls) ∧
    applyCalls cfg calls (AXIS_A + j) = cfg (AXIS_A + j) := by
  have hnm : ∀ mn mx : Nat, ((AXIS_A + j, mn, mx) : setCall) ∉ calls := by
    intro mn mx hmem
    have hmem2 : ((AXIS_A + j, mn, mx) : setCall) ∈ (loadApply has t).2 := by
      rw [hload]; exact hmem
    rcases loadGo_calls has t _ [] _ hmem2 with h | ⟨i, _, hceq, hpres, _⟩
    · simp at h
    · have hji : j = i := by
        have := congrArg (fun c : setCall => c.1) hceq
        simpa [AXIS_A] using this
      rw [← hji, hj] at hpres
      cases hpres
  exact ⟨hnm, applyCalls_of_not_mem calls cfg _ hnm⟩

/-- The parsed table of C8's witness: only axis 0 present. -/
def t8 : List axis_range :=
  [⟨true, 5, 10⟩, zeroRange, zeroRange, zeroRange, zeroRange, zeroRange]

/-- Witness for C8 on a successful load of a one-axis table: axis 1 gets
no mutation and keeps its configuration. -/
theorem c8_witness :
    (∀ mn mx : Nat, ((AXIS_A + 1, mn, mx) : setCall) ∉
      ([((0 : Nat), (5 : Nat), (10 : Nat))] : List setCall)) ∧
    applyCalls (fun _ => (7, 8)) ([((0 : Nat), (5 : Nat), (10 : Nat))] : List setCall)
      (AXIS_A + 1) = (fun _ => ((7 : Nat), (8 : Nat))) (AXIS_A + 1) :=
  c8_frame (fun _ => true) t8 [(0, 5, 10)] (fun _ => (7, 8)) 1 (by decide) (by decide)

theorem updRange_eval (r : axis_range) (v : Int) :
    updRange r v =
      ⟨r.present, if toU32 v < r.min then toU32 v else r.min,
        if toU32 v > r.max then toU32 v else r.max⟩ := by
  simp only [updRange]
  split <;> split <;> simp_all

theorem updRange_max_mono (r : axis_range) (v : Int) :
    r.max ≤ (updRange r v).max := by
  rw [updRange_eval]
  dsimp only
  split <;> omega

theorem foldl_updRange_max_mono (l : List Int) :
    ∀ r : axis_range, r.max ≤ (l.foldl updRange r).max := by
  induction l with
  | nil => intro r; exact le_refl _
  | cons v rest ih =>
    intro r
    exact le_trans (updRange_max_mono r v) (ih (updRange r v))

theorem foldl_updRange_neg_pushes_max (l : List Int) :
    ∀ r : axis_range, (∀ v ∈ l, -(2 ^ 31) ≤ v) → (∃ v ∈ l, v < 0) →
      2 ^ 31 ≤ (l.foldl updRange r).max := by
  induction l with
  | nil => intro r _ hex; simp at hex
  | cons w rest ih =>
    intro r hb hex
    rcases hex with ⟨v, hv, hvneg⟩
    rcases List.mem_cons.mp hv with rfl | hvr
    · have hu : 2 ^ 31 ≤ toU32 v := by
        have hb' := hb v (List.mem_cons_self _ _)
        unfold toU32
        omega
      have hw : 2 ^ 31 ≤ (updRange r v).max := by
        rw [updRange_eval]
        dsimp only
        split <;> omega
      exact le_trans hw (foldl_updRange_max_mono rest (updRange r v))
    · exact ih (updRange r w)
        (fun x hx => hb x (List.mem_cons_of_mem _ hx)) ⟨v, hvr, hvneg⟩

/-- Claim C9, counterexample: "for any axis-sample event with negative
value v, the axis max is set to v mod 2^32" fails when a previous
negative sample already pushed max above the new value's unsigned image:
after samples -1 then -5, max is 2^32 - 1, not (-5) mod 2^32. -/
theorem c9_counterexample :
    updRange (updRange ⟨true, 65535, 0⟩ (-1)) (-5) =
      ⟨true, 65535, 4294967295⟩ ∧
    toU32 (-5) = 4294967291 ∧ (4294967295 : Nat) ≠ 4294967291 := by
  exact ⟨by decide, by decide, by decide⟩

/-- Claim C9, amended: the per-axis fields are unsigned while the event
value is signed, and the update compares them as unsigned.  For a
negative in-range value v the unsigned image v mod 2^32 is at least 2^31,
so (with min below 2^31, as it always is during capture, starting at
65535 and only decreasing) min never changes; max is set to v mod 2^32
whenever that image exceeds the stored max — in particular whenever the
stored max is still below 2^31 — and is left unchanged otherwise.  Once
any sample is negative, the recorded max is at least 2^31 and therefore
differs from every sample value (all below 2^31), so the recorded
(min, max) can equal the true extrema of the samples only when every
sample is nonnegative. -/
theorem c9_amended :
    (∀ (r : axis_range) (v : Int), r.min < 2 ^ 31 → -(2 ^ 31) ≤ v → v < 0 →
      2 ^ 31 ≤ toU32 v ∧ (updRange r v).min = r.min ∧
      (r.max < 2 ^ 31 → (updRange r v).max = toU32 v) ∧
      (toU32 v ≤ r.max → (updRange r v).max = r.max)) ∧
    (∀ l : List Int, (∀ v ∈ l, -(2 ^ 31) ≤ v ∧ v < 2 ^ 31) →
      (∃ v ∈ l, v < 0) →
      2 ^ 31 ≤ (runAxis l).max ∧ ∀ v ∈ l, v ≠ ((runAxis l).max : Int)) := by
  constructor
  · intro r v h1 h2 h3
    have hu : 2 ^ 31 ≤ toU32 v ∧ toU32 v < 2 ^ 32 := by
      unfold toU32
      omega
    rw [updRange_eval]
    refine ⟨hu.1, ?_, ?_, ?_⟩
    · dsimp only
      rw [if_neg (by omega)]
    · intro hmax
      dsimp only
      rw [if_pos (by omega)]
    · intro hle
      dsimp only
      rw [if_neg (by omega)]
  · intro l hb hneg
    have hmax : 2 ^ 31 ≤ (runAxis l).max :=
      foldl_updRange_neg_pushes_max l _ (fun v hv => (hb v hv).1) hneg
    refine ⟨hmax, ?_⟩
    intro v hv heq
    have hvlt := (hb v hv).2
    omega

/-- Witness for C9's amended theorem at the first negative sample -1 on
a freshly initialized axis. -/
theorem c9_witness :
    (updRange ⟨true, 65535, 0⟩ (-1)).min = 65535 ∧
    (updRange ⟨true, 65535, 0⟩ (-1)).max = toU32 (-1) ∧
    2 ^ 31 ≤ (runAxis [-1]).max :=
  ⟨(c9_amended.1 ⟨true, 65535, 0⟩ (-1) (by decide) (by decide) (by decide)).2.1,
   (c9_amended.1 ⟨true, 65535, 0⟩ (-1) (by decide) (by decide) (by decide)).2.2.1
     (by decide),
   (c9_amended.2 [-1] (by decide) ⟨-1, by decide, by decide⟩).1⟩

theorem readLoop_succ (n : Nat) (s : ReadState) :
    readLoop (n + 1) s = if s.eofF then some s.table else readLoop n (readStep s) :=
  rfl

/-- Claim C3 (code bug): the round trip fails at the table with no axis
present.  Writing it produces the empty file; reading that back runs one
iteration of the `while (!feof(fp))` loop in which `fscanf` returns EOF
without assigning the line variables, and the unconditional table write
then uses them uninitialized (undefined behaviour) instead of
reproducing the empty table. -/
theorem c3_empty_roundtrip_bug :
    writeFile emptyTable = [] ∧
    readFile 2 (writeFile emptyTable) = some .ubUninit ∧
    (∀ fuel, readFile fuel (writeFile emptyTable) ≠ some (.ok emptyTable)) := by
  refine ⟨rfl, by decide, ?_⟩
  intro fuel
  show readLoop fuel ⟨[], false, .ok emptyTable⟩ ≠ some (.ok emptyTable)
  cases fuel with
  | zero => simp [readLoop]
  | succ n =>
    cases n with
    | zero => decide
    | succ m =>
      rw [readLoop_succ, if_neg (by decide),
        show readStep ⟨[], false, .ok emptyTable⟩ = ⟨[], true, .ubUninit⟩
          from by decide,
        readLoop_succ, if_pos (by decide)]
      decide

/-- The mapping file of C4: one well-formed line, then a malformed one. -/
def garbledContent : List Char := ("axis 0: min = 1, max = 2\ngarbage\n").data

/-- The unread remainder once the malformed line is reached. -/
def garbledTail : List Char := ("garbage\n").data

/-- The table after the first (well-formed) line has been stored. -/
def table1 : List axis_range :=
  [⟨true, 1, 2⟩, zeroRange, zeroRange, zeroRange, zeroRange, zeroRange]

/-- Claim C4 (code bug): on a line that does not match the format,
`fscanf` returns 0 — not a negative value, so the `< 0` check reports
nothing — consumes no input and does not set the end-of-file flag; the
loop therefore repeats the identical iteration forever.  No ParseError
report is produced for the line and the read never terminates (for every
fuel the loop is still running), the table meanwhile having been
clobbered through the uninitialized line variables. -/
theorem c4_parse_bug :
    (scanLine garbledTail).ret = 0 ∧
    ¬(scanLine garbledTail).ret < 0 ∧
    (scanLine garbledTail).rest = garbledTail ∧
    (scanLine garbledTail).eof = false ∧
    (∀ fuel, readFile fuel garbledContent = none) := by
  refine ⟨by decide, by decide, by decide, by decide, ?_⟩
  have h1 : readStep ⟨garbledContent, false, .ok emptyTable⟩ =
      ⟨garbledTail, false, .ok table1⟩ := by decide
  have h2 : readStep ⟨garbledTail, false, .ok table1⟩ =
      ⟨garbledTail, false, .ubUninit⟩ := by decide
  have h3 : readStep ⟨garbledTail, false, .ubUninit⟩ =
      ⟨garbledTail, false, .ubUninit⟩ := by decide
  have hfix : ∀ n, readLoop n ⟨garbledTail, false, .ubUninit⟩ = none := by
    intro n
    induction n with
    | zero => rfl
    | succ k ih => rw [readLoop_succ, if_neg (by decide), h3]; exact ih
  intro fuel
  show readLoop fuel ⟨garbledContent, false, .ok emptyTable⟩ = none
  cases fuel with
  | zero => rfl
  | succ n =>
    cases n with
    | zero =>
      rw [readLoop_succ, if_neg (by decide)]
      rfl
    | succ m =>
      rw [readLoop_succ, if_neg (by decide), h1,
        readLoop_succ, if_neg (by decide), h2]
      exact hfix m

/-- The mapping file of C10: syntactically well-formed, axis id 100. -/
def oobContent : List Char := ("axis 100: min = 0, max = 1\n").data

/-- Claim C10: `load`'s parse loop indexes the table with the AxisId read
from the file, unchecked: on the well-formed line `axis 100: min = 0,
max = 1` all three conversions succeed (`fscanf` returns 3), the
computed index 100 is outside the 6-entry table, and the out-of-range
branch of the option-valued table write is reached from the load
interface. -/
theorem c10_oob_reachable :
    (scanLine oobContent).ret = 3 ∧
    (scanLine oobContent).vals = [100, 0, 1] ∧
    tableSet emptyTable 100 0 1 = none ∧
    readFile 2 oobContent = some .ubOOB := by
  exact ⟨by decide, by decide, by decide, by decide⟩

end Axscale
